import Mathlib

/-!
Verification of the resource-quantity normalization and node-health
aggregation engine of `src/oci_oke_node_inspector.py`.

Modelling conventions:
* Python unbounded integers are `Int` (counts that are lengths are `Nat`).
* Python floats arising from true division of exact integers are `ℚ`
  (every quantity involved is exact, so no rounding model is needed).
* Python string-to-integer conversion `int(s)` is modelled by `pyInt`,
  which returns `none` exactly where CPython raises `ValueError`
  (ASCII whitespace stripped, optional sign, nonempty decimal digit run
  with single underscore separators allowed between digits).
* Fallible code paths return `Option`.
-/

namespace OkeInspector

/-- ASCII whitespace as recognized by Python `str.strip()` and `int()`. -/
def isPySpace (c : Char) : Bool :=
  c == ' ' || c == '\t' || c == '\n' || c == '\r' || c == '\x0b' || c == '\x0c'

/-- Python `str.strip()` on a character list. -/
def pyStrip (cs : List Char) : List Char :=
  ((cs.dropWhile isPySpace).reverse.dropWhile isPySpace).reverse

/-- Numeric value of a decimal digit character. -/
def digitVal (c : Char) : Nat := c.toNat - 48

/-- Remaining characters of a Python integer literal after its first digit:
    decimal digits, with a single underscore allowed between two digits. -/
def pyDigitsAux (acc : Nat) : List Char → Option Nat
  | [] => some acc
  | '_' :: c2 :: rest2 =>
    if c2.isDigit then pyDigitsAux (acc * 10 + digitVal c2) rest2 else none
  | c :: rest =>
    if c.isDigit then pyDigitsAux (acc * 10 + digitVal c) rest else none

/-- Python `int()` on an already-stripped character list:
    optional sign directly followed by a nonempty digit run. -/
def pyIntCore : List Char → Option Int
  | '-' :: c2 :: rest2 =>
    if c2.isDigit then (pyDigitsAux (digitVal c2) rest2).map (fun n => -(n : Int))
    else none
  | '+' :: c2 :: rest2 =>
    if c2.isDigit then (pyDigitsAux (digitVal c2) rest2).map (fun n => (n : Int))
    else none
  | c :: rest =>
    if c.isDigit then (pyDigitsAux (digitVal c) rest).map (fun n => (n : Int))
    else none
  | [] => none

/-- Python `int(s)` on a string; `none` models `ValueError`. -/
def pyInt (s : String) : Option Int := pyIntCore (pyStrip s.toList)

/-- Suffix test on character lists, computed on reversed lists
    (Python `str.endswith`). -/
def endsWithL (cs sfx : List Char) : Bool := sfx.reverse.isPrefixOf cs.reverse

/-- Python `str.endswith`. -/
def pyEndsWith (s sfx : String) : Bool := endsWithL s.toList sfx.toList

/-- Python slice `s[:-k]`. -/
def dropRightStr (s : String) (k : Nat) : String :=
  ⟨s.toList.take (s.toList.length - k)⟩

/-- Function `parse_cpu` from the source: suffix `n` (nanocores, floor-divided by
    10^6; Python `//` is `Int.fdiv`), then suffix `m` (millicores), else
    whole cores multiplied by 1000. -/
def parse_cpu (cpu_str : String) : Option Int :=
  if pyEndsWith cpu_str "n" then
    (pyInt (dropRightStr cpu_str 1)).map (fun v => Int.fdiv v 1000000)
  else if pyEndsWith cpu_str "m" then
    pyInt (dropRightStr cpu_str 1)
  else
    (pyInt cpu_str).map (fun v => v * 1000)

/-- Suffix dispatch of `parse_memory`, applied after the `strip()`. -/
def parse_memory_core (mem_str : String) : Option Int :=
  if pyEndsWith mem_str "Ki" then
    (pyInt (dropRightStr mem_str 2)).map (fun v => v * 1024)
  else if pyEndsWith mem_str "Mi" then
    (pyInt (dropRightStr mem_str 2)).map (fun v => v * 1024 * 1024)
  else if pyEndsWith mem_str "Gi" then
    (pyInt (dropRightStr mem_str 2)).map (fun v => v * 1024 * 1024 * 1024)
  else if pyEndsWith mem_str "K" then
    (pyInt (dropRightStr mem_str 1)).map (fun v => v * 1000)
  else if pyEndsWith mem_str "M" then
    (pyInt (dropRightStr mem_str 1)).map (fun v => v * 1000 * 1000)
  else if pyEndsWith mem_str "G" then
    (pyInt (dropRightStr mem_str 1)).map (fun v => v * 1000 * 1000 * 1000)
  else
    pyInt mem_str

/-- Function `parse_memory` from the source: strips whitespace, then checks the
    binary suffixes Ki, Mi, Gi before the decimal suffixes K, M, G,
    else the value is already in bytes. -/
def parse_memory (mem_str0 : String) : Option Int :=
  parse_memory_core ⟨pyStrip mem_str0.toList⟩

/-! ### Helper lemmas about the character-level machinery -/

theorem isDigit_not_special {c : Char} (hc : c.isDigit = true) :
    c ≠ '-' ∧ c ≠ '+' ∧ c ≠ '_' ∧ isPySpace c = false ∧
    c ≠ 'n' ∧ c ≠ 'm' ∧ c ≠ 'K' ∧ c ≠ 'M' ∧ c ≠ 'G' ∧ c ≠ 'i' := by
  have hsp : isPySpace c = false := by
    cases hb : isPySpace c with
    | false => rfl
    | true =>
      exfalso
      simp only [isPySpace, Bool.or_eq_true, beq_iff_eq] at hb
      rcases hb with ((((h | h) | h) | h) | h) | h <;>
        exact absurd (h ▸ hc) (by decide)
  refine ⟨?_, ?_, ?_, hsp, ?_, ?_, ?_, ?_, ?_, ?_⟩ <;>
    · intro h
      exact absurd (h ▸ hc) (by decide)

theorem dropWhile_eq_self_of_false {p : Char → Bool} {l : List Char}
    (h : ∀ c ∈ l, p c = false) : l.dropWhile p = l := by
  cases l with
  | nil => rfl
  | cons c rest => simp [List.dropWhile_cons, h c (List.mem_cons_self c rest)]

theorem pyStrip_eq_self {l : List Char} (h : ∀ c ∈ l, isPySpace c = false) :
    pyStrip l = l := by
  unfold pyStrip
  rw [dropWhile_eq_self_of_false h,
    dropWhile_eq_self_of_false (fun c hc => h c (List.mem_reverse.mp hc)),
    List.reverse_reverse]

theorem pyDigitsAux_digits :
    ∀ (ds : List Char), (∀ c ∈ ds, c.isDigit = true) → ∀ acc : Nat,
      pyDigitsAux acc ds = some (ds.foldl (fun a c => a * 10 + digitVal c) acc)
  | [], _, _ => rfl
  | c :: rest, h, acc => by
    have hc : c.isDigit = true := h c (List.mem_cons_self c rest)
    have hne : c ≠ '_' := (isDigit_not_special hc).2.2.1
    have ih := pyDigitsAux_digits rest (fun x hx => h x (List.mem_cons_of_mem c hx))
      (acc * 10 + digitVal c)
    simp [pyDigitsAux, hc, hne, ih]

/-- Value of a plain decimal digit string. -/
def digitsVal (ds : List Char) : Nat := ds.foldl (fun a c => a * 10 + digitVal c) 0

theorem digitsVal_cons (c : Char) (rest : List Char) :
    digitsVal (c :: rest) = rest.foldl (fun a x => a * 10 + digitVal x) (digitVal c) := by
  simp [digitsVal]

theorem pyIntCore_digits {ds : List Char} (h0 : ds ≠ [])
    (hds : ∀ c ∈ ds, c.isDigit = true) :
    pyIntCore ds = some ((digitsVal ds : Int)) := by
  cases ds with
  | nil => exact absurd rfl h0
  | cons c rest =>
    have hc : c.isDigit = true := hds c (List.mem_cons_self c rest)
    obtain ⟨h1, h2, -⟩ := isDigit_not_special hc
    rw [digitsVal_cons]
    simp [pyIntCore, h1, h2, hc,
      pyDigitsAux_digits rest (fun x hx => hds x (List.mem_cons_of_mem c hx))]

theorem pyIntCore_neg_digits {ds : List Char} (h0 : ds ≠ [])
    (hds : ∀ c ∈ ds, c.isDigit = true) :
    pyIntCore ('-' :: ds) = some (-(digitsVal ds : Int)) := by
  cases ds with
  | nil => exact absurd rfl h0
  | cons c rest =>
    have hc : c.isDigit = true := hds c (List.mem_cons_self c rest)
    simp [pyIntCore, hc, digitsVal_cons,
      pyDigitsAux_digits rest (fun x hx => hds x (List.mem_cons_of_mem c hx))]

theorem endsWithL_append (ds sfx : List Char) : endsWithL (ds ++ sfx) sfx = true := by
  unfold endsWithL
  rw [List.reverse_append]
  exact List.isPrefixOf_iff_prefix.mpr (List.prefix_append _ _)

theorem endsWithL_concat_one_false (ds : List Char) {k a : Char} (h : a ≠ k) :
    endsWithL (ds ++ [k]) [a] = false := by
  unfold endsWithL
  simp [List.isPrefixOf, List.reverse_append, h]

theorem endsWithL_concat_two_false (ds : List Char) {k a b : Char} (h : b ≠ k) :
    endsWithL (ds ++ [k]) [a, b] = false := by
  unfold endsWithL
  simp [List.isPrefixOf, List.reverse_append, h]

theorem endsWithL_two_two_false (ds : List Char) {k1 k2 a b : Char} (h : a ≠ k1) :
    endsWithL (ds ++ [k1, k2]) [a, b] = false := by
  unfold endsWithL
  simp [List.isPrefixOf, List.reverse_append, h]

theorem take_append_length (ds sfx : List Char) :
    (ds ++ sfx).take ((ds ++ sfx).length - sfx.length) = ds := by
  rw [List.length_append, Nat.add_sub_cancel]
  exact List.take_left ds sfx

theorem no_space_append {l1 l2 : List Char} (h1 : ∀ c ∈ l1, isPySpace c = false)
    (h2 : ∀ c ∈ l2, isPySpace c = false) : ∀ c ∈ l1 ++ l2, isPySpace c = false := by
  intro c hc
  rcases List.mem_append.mp hc with h | h
  · exact h1 c h
  · exact h2 c h

theorem no_space_digits {l : List Char} (h : ∀ c ∈ l, c.isDigit = true) :
    ∀ c ∈ l, isPySpace c = false :=
  fun c hc => (isDigit_not_special (h c hc)).2.2.2.1

theorem pyInt_mk_digits {ds : List Char} (h0 : ds ≠ [])
    (hds : ∀ c ∈ ds, c.isDigit = true) :
    pyInt ⟨ds⟩ = some ((digitsVal ds : Int)) := by
  show pyIntCore (pyStrip ds) = some ((digitsVal ds : Int))
  rw [pyStrip_eq_self (no_space_digits hds)]
  exact pyIntCore_digits h0 hds

theorem pyInt_mk_neg_digits {ds : List Char} (h0 : ds ≠ [])
    (hds : ∀ c ∈ ds, c.isDigit = true) :
    pyInt ⟨'-' :: ds⟩ = some (-(digitsVal ds : Int)) := by
  show pyIntCore (pyStrip ('-' :: ds)) = some (-(digitsVal ds : Int))
  have hns : ∀ c ∈ '-' :: ds, isPySpace c = false := by
    intro c hc
    rcases List.mem_cons.mp hc with rfl | h
    · rfl
    · exact no_space_digits hds c h
  rw [pyStrip_eq_self hns]
  exact pyIntCore_neg_digits h0 hds

/-! ### Branch lemmas: the parsers on digit strings with each suffix -/

theorem pm_core_Ki {ds : List Char} (h0 : ds ≠ []) (hds : ∀ c ∈ ds, c.isDigit = true) :
    parse_memory_core ⟨ds ++ ['K', 'i']⟩ = some ((digitsVal ds : Int) * 1024) := by
  have h1 : pyEndsWith ⟨ds ++ ['K', 'i']⟩ "Ki" = true := endsWithL_append ds ['K', 'i']
  have h2 : dropRightStr ⟨ds ++ ['K', 'i']⟩ 2 = ⟨ds⟩ :=
    congrArg String.mk (take_append_length ds ['K', 'i'])
  simp [parse_memory_core, h1, h2, pyInt_mk_digits h0 hds]

theorem pm_core_Mi {ds : List Char} (h0 : ds ≠ []) (hds : ∀ c ∈ ds, c.isDigit = true) :
    parse_memory_core ⟨ds ++ ['M', 'i']⟩ = some ((digitsVal ds : Int) * 1024 * 1024) := by
  have h1 : pyEndsWith ⟨ds ++ ['M', 'i']⟩ "Ki" = false :=
    endsWithL_two_two_false ds (by decide)
  have h2 : pyEndsWith ⟨ds ++ ['M', 'i']⟩ "Mi" = true := endsWithL_append ds ['M', 'i']
  have h3 : dropRightStr ⟨ds ++ ['M', 'i']⟩ 2 = ⟨ds⟩ :=
    congrArg String.mk (take_append_length ds ['M', 'i'])
  simp [parse_memory_core, h1, h2, h3, pyInt_mk_digits h0 hds]

theorem pm_core_Gi {ds : List Char} (h0 : ds ≠ []) (hds : ∀ c ∈ ds, c.isDigit = true) :
    parse_memory_core ⟨ds ++ ['G', 'i']⟩ =
      some ((digitsVal ds : Int) * 1024 * 1024 * 1024) := by
  have h1 : pyEndsWith ⟨ds ++ ['G', 'i']⟩ "Ki" = false :=
    endsWithL_two_two_false ds (by decide)
  have h2 : pyEndsWith ⟨ds ++ ['G', 'i']⟩ "Mi" = false :=
    endsWithL_two_two_false ds (by decide)
  have h3 : pyEndsWith ⟨ds ++ ['G', 'i']⟩ "Gi" = true := endsWithL_append ds ['G', 'i']
  have h4 : dropRightStr ⟨ds ++ ['G', 'i']⟩ 2 = ⟨ds⟩ :=
    congrArg String.mk (take_append_length ds ['G', 'i'])
  simp [parse_memory_core, h1, h2, h3, h4, pyInt_mk_digits h0 hds]

theorem pm_core_K {ds : List Char} (h0 : ds ≠ []) (hds : ∀ c ∈ ds, c.isDigit = true) :
    parse_memory_core ⟨ds ++ ['K']⟩ = some ((digitsVal ds : Int) * 1000) := by
  have h1 : pyEndsWith ⟨ds ++ ['K']⟩ "Ki" = false :=
    endsWithL_concat_two_false ds (by decide)
  have h2 : pyEndsWith ⟨ds ++ ['K']⟩ "Mi" = false :=
    endsWithL_concat_two_false ds (by decide)
  have h3 : pyEndsWith ⟨ds ++ ['K']⟩ "Gi" = false :=
    endsWithL_concat_two_false ds (by decide)
  have h4 : pyEndsWith ⟨ds ++ ['K']⟩ "K" = true := endsWithL_append ds ['K']
  have h5 : dropRightStr ⟨ds ++ ['K']⟩ 1 = ⟨ds⟩ :=
    congrArg String.mk (take_append_length ds ['K'])
  simp [parse_memory_core, h1, h2, h3, h4, h5, pyInt_mk_digits h0 hds]

theorem pm_core_M {ds : List Char} (h0 : ds ≠ []) (hds : ∀ c ∈ ds, c.isDigit = true) :
    parse_memory_core ⟨ds ++ ['M']⟩ = some ((digitsVal ds : Int) * 1000 * 1000) := by
  have h1 : pyEndsWith ⟨ds ++ ['M']⟩ "Ki" = false :=
    endsWithL_concat_two_false ds (by decide)
  have h2 : pyEndsWith ⟨ds ++ ['M']⟩ "Mi" = false :=
    endsWithL_concat_two_false ds (by decide)
  have h3 : pyEndsWith ⟨ds ++ ['M']⟩ "Gi" = false :=
    endsWithL_concat_two_false ds (by decide)
  have h4 : pyEndsWith ⟨ds ++ ['M']⟩ "K" = false :=
    endsWithL_concat_one_false ds (by decide)
  have h5 : pyEndsWith ⟨ds ++ ['M']⟩ "M" = true := endsWithL_append ds ['M']
  have h6 : dropRightStr ⟨ds ++ ['M']⟩ 1 = ⟨ds⟩ :=
    congrArg String.mk (take_append_length ds ['M'])
  simp [parse_memory_core, h1, h2, h3, h4, h5, h6, pyInt_mk_digits h0 hds]

theorem pm_core_G {ds : List Char} (h0 : ds ≠ []) (hds : ∀ c ∈ ds, c.isDigit = true) :
    parse_memory_core ⟨ds ++ ['G']⟩ =
      some ((digitsVal ds : Int) * 1000 * 1000 * 1000) := by
  have h1 : pyEndsWith ⟨ds ++ ['G']⟩ "Ki" = false :=
    endsWithL_concat_two_false ds (by decide)
  have h2 : pyEndsWith ⟨ds ++ ['G']⟩ "Mi" = false :=
    endsWithL_concat_two_false ds (by decide)
  have h3 : pyEndsWith ⟨ds ++ ['G']⟩ "Gi" = false :=
    endsWithL_concat_two_false ds (by decide)
  have h4 : pyEndsWith ⟨ds ++ ['G']⟩ "K" = false :=
    endsWithL_concat_one_false ds (by decide)
  have h5 : pyEndsWith ⟨ds ++ ['G']⟩ "M" = false :=
    endsWithL_concat_one_false ds (by decide)
  have h6 : pyEndsWith ⟨ds ++ ['G']⟩ "G" = true := endsWithL_append ds ['G']
  have h7 : dropRightStr ⟨ds ++ ['G']⟩ 1 = ⟨ds⟩ :=
    congrArg String.mk (take_append_length ds ['G'])
  simp [parse_memory_core, h1, h2, h3, h4, h5, h6, h7, pyInt_mk_digits h0 hds]

theorem pm_core_bare {ds : List Char} (h0 : ds ≠ []) (hds : ∀ c ∈ ds, c.isDigit = true) :
    parse_memory_core ⟨ds⟩ = some ((digitsVal ds : Int)) := by
  rcases List.eq_nil_or_concat ds with rfl | ⟨L, c, rfl⟩
  · exact absurd rfl h0
  · rw [List.concat_eq_append] at hds ⊢
    have hc : c.isDigit = true := hds c (by simp)
    obtain ⟨-, -, -, -, -, -, hK, hM, hG, hi⟩ := isDigit_not_special hc
    have h1 : pyEndsWith ⟨L ++ [c]⟩ "Ki" = false :=
      endsWithL_concat_two_false L (Ne.symm hi)
    have h2 : pyEndsWith ⟨L ++ [c]⟩ "Mi" = false :=
      endsWithL_concat_two_false L (Ne.symm hi)
    have h3 : pyEndsWith ⟨L ++ [c]⟩ "Gi" = false :=
      endsWithL_concat_two_false L (Ne.symm hi)
    have h4 : pyEndsWith ⟨L ++ [c]⟩ "K" = false :=
      endsWithL_concat_one_false L (Ne.symm hK)
    have h5 : pyEndsWith ⟨L ++ [c]⟩ "M" = false :=
      endsWithL_concat_one_false L (Ne.symm hM)
    have h6 : pyEndsWith ⟨L ++ [c]⟩ "G" = false :=
      endsWithL_concat_one_false L (Ne.symm hG)
    simp [parse_memory_core, h1, h2, h3, h4, h5, h6,
      pyInt_mk_digits (by simp) hds]

theorem pm_core_neg_Ki {ds : List Char} (h0 : ds ≠ [])
    (hds : ∀ c ∈ ds, c.isDigit = true) :
    parse_memory_core ⟨'-' :: ds ++ ['K', 'i']⟩ =
      some (-(digitsVal ds : Int) * 1024) := by
  have h1 : pyEndsWith ⟨'-' :: (ds ++ ['K', 'i'])⟩ "Ki" = true :=
    endsWithL_append ('-' :: ds) ['K', 'i']
  have h2 : dropRightStr ⟨'-' :: (ds ++ ['K', 'i'])⟩ 2 = ⟨'-' :: ds⟩ :=
    congrArg String.mk (take_append_length ('-' :: ds) ['K', 'i'])
  simp [parse_memory_core, h1, h2, pyInt_mk_neg_digits h0 hds]

theorem pc_n {ds : List Char} (h0 : ds ≠ []) (hds : ∀ c ∈ ds, c.isDigit = true) :
    parse_cpu ⟨ds ++ ['n']⟩ = some ((digitsVal ds / 1000000 : Nat) : Int) := by
  have h1 : pyEndsWith ⟨ds ++ ['n']⟩ "n" = true := endsWithL_append ds ['n']
  have h2 : dropRightStr ⟨ds ++ ['n']⟩ 1 = ⟨ds⟩ :=
    congrArg String.mk (take_append_length ds ['n'])
  simp [parse_cpu, h1, h2, pyInt_mk_digits h0 hds]
  exact Int.fdiv_eq_ediv _ (by norm_num)

theorem pc_m {ds : List Char} (h0 : ds ≠ []) (hds : ∀ c ∈ ds, c.isDigit = true) :
    parse_cpu ⟨ds ++ ['m']⟩ = some ((digitsVal ds : Int)) := by
  have h1 : pyEndsWith ⟨ds ++ ['m']⟩ "n" = false :=
    endsWithL_concat_one_false ds (by decide)
  have h2 : pyEndsWith ⟨ds ++ ['m']⟩ "m" = true := endsWithL_append ds ['m']
  have h3 : dropRightStr ⟨ds ++ ['m']⟩ 1 = ⟨ds⟩ :=
    congrArg String.mk (take_append_length ds ['m'])
  simp [parse_cpu, h1, h2, h3, pyInt_mk_digits h0 hds]

theorem pc_bare {ds : List Char} (h0 : ds ≠ []) (hds : ∀ c ∈ ds, c.isDigit = true) :
    parse_cpu ⟨ds⟩ = some ((digitsVal ds : Int) * 1000) := by
  rcases List.eq_nil_or_concat ds with rfl | ⟨L, c, rfl⟩
  · exact absurd rfl h0
  · rw [List.concat_eq_append] at hds ⊢
    have hc : c.isDigit = true := hds c (by simp)
    obtain ⟨-, -, -, -, hn, hm, -⟩ := isDigit_not_special hc
    have h1 : pyEndsWith ⟨L ++ [c]⟩ "n" = false :=
      endsWithL_concat_one_false L (Ne.symm hn)
    have h2 : pyEndsWith ⟨L ++ [c]⟩ "m" = false :=
      endsWithL_concat_one_false L (Ne.symm hm)
    simp [parse_cpu, h1, h2, pyInt_mk_digits (by simp) hds]

theorem pc_neg_m {ds : List Char} (h0 : ds ≠ [])
    (hds : ∀ c ∈ ds, c.isDigit = true) :
    parse_cpu ⟨'-' :: ds ++ ['m']⟩ = some (-(digitsVal ds : Int)) := by
  have h1 : pyEndsWith ⟨'-' :: (ds ++ ['m'])⟩ "n" = false :=
    endsWithL_concat_one_false ('-' :: ds) (by decide)
  have h2 : pyEndsWith ⟨'-' :: (ds ++ ['m'])⟩ "m" = true :=
    endsWithL_append ('-' :: ds) ['m']
  have h3 : dropRightStr ⟨'-' :: (ds ++ ['m'])⟩ 1 = ⟨'-' :: ds⟩ :=
    congrArg String.mk (take_append_length ('-' :: ds) ['m'])
  simp [parse_cpu, h1, h2, h3, pyInt_mk_neg_digits h0 hds]

/-- Reduce `parse_memory` on a digit string with a whitespace-free suffix
    appended to the un-stripped core dispatch. -/
theorem parse_memory_append_eq (d : String) (sfx : List Char)
    (hd : ∀ c ∈ d.toList, c.isDigit = true)
    (hsfx : ∀ c ∈ sfx, isPySpace c = false) (t : String) (ht : t.toList = sfx) :
    parse_memory (d ++ t) = parse_memory_core ⟨d.toList ++ sfx⟩ := by
  unfold parse_memory
  have e : (d ++ t).toList = d.toList ++ sfx := by
    rw [← ht]
    exact String.data_append d t
  rw [e, pyStrip_eq_self (no_space_append (no_space_digits hd) hsfx)]

theorem parse_memory_digits_eq (d : String)
    (hd : ∀ c ∈ d.toList, c.isDigit = true) :
    parse_memory d = parse_memory_core ⟨d.toList⟩ := by
  unfold parse_memory
  rw [pyStrip_eq_self (no_space_digits hd)]

/-! ### Whitespace handling -/

theorem dropWhile_append_all_true {p : Char → Bool} :
    ∀ (ws : List Char), (∀ c ∈ ws, p c = true) → ∀ l : List Char,
      (ws ++ l).dropWhile p = l.dropWhile p
  | [], _, _ => rfl
  | c :: rest, h, l => by
    have hc : p c = true := h c (List.mem_cons_self c rest)
    rw [List.cons_append, List.dropWhile_cons, hc]
    simp only [if_true]
    exact dropWhile_append_all_true rest (fun x hx => h x (List.mem_cons_of_mem c hx)) l

theorem pyStrip_pad {ws1 ws2 l : List Char} (h1 : ∀ c ∈ ws1, isPySpace c = true)
    (h2 : ∀ c ∈ ws2, isPySpace c = true) :
    pyStrip (ws1 ++ l ++ ws2) = pyStrip l := by
  unfold pyStrip
  rw [List.append_assoc, dropWhile_append_all_true ws1 h1 (l ++ ws2)]
  cases hdl : l.dropWhile isPySpace with
  | nil =>
    have hall : ∀ x ∈ l, isPySpace x := List.dropWhile_eq_nil_iff.mp hdl
    have hnil : (l ++ ws2).dropWhile isPySpace = [] := by
      refine List.dropWhile_eq_nil_iff.mpr ?_
      intro x hx
      rcases List.mem_append.mp hx with h | h
      · exact hall x h
      · exact h2 x h
    rw [hnil]
  | cons d r =>
    have hsplit : (l ++ ws2).dropWhile isPySpace = l.dropWhile isPySpace ++ ws2 := by
      rw [List.dropWhile_append, hdl]
      simp
    rw [hsplit, hdl, List.reverse_append,
      dropWhile_append_all_true ws2.reverse
        (fun c hc => h2 c (List.mem_reverse.mp hc)) (d :: r).reverse]

/-! ### Claim theorems for the quantity parsers -/

/-- C1: `parse_memory` maps each recognized suffix to its exact multiplier —
    binary suffixes Ki/Mi/Gi to powers of 1024 and decimal suffixes K/M/G to
    powers of 1000, with the longest-matching suffix (Ki before K, etc.)
    checked first — a bare digit string is already bytes, and the four
    concrete fixtures hold. -/
theorem parse_memory_unit_multipliers (d : String) (h0 : d.toList ≠ [])
    (hd : ∀ c ∈ d.toList, c.isDigit = true) :
    parse_memory (d ++ "Ki") = some ((digitsVal d.toList : Int) * 1024)
    ∧ parse_memory (d ++ "Mi") = some ((digitsVal d.toList : Int) * 1024 * 1024)
    ∧ parse_memory (d ++ "Gi") = some ((digitsVal d.toList : Int) * 1024 * 1024 * 1024)
    ∧ parse_memory (d ++ "K") = some ((digitsVal d.toList : Int) * 1000)
    ∧ parse_memory (d ++ "M") = some ((digitsVal d.toList : Int) * 1000 * 1000)
    ∧ parse_memory (d ++ "G") = some ((digitsVal d.toList : Int) * 1000 * 1000 * 1000)
    ∧ parse_memory d = some ((digitsVal d.toList : Int))
    ∧ parse_memory "1Ki" = some 1024
    ∧ parse_memory "2Gi" = some 2147483648
    ∧ parse_memory "1000M" = some 1000000000
    ∧ parse_memory "1000000" = some 1000000 := by
  refine ⟨?_, ?_, ?_, ?_, ?_, ?_, ?_, by decide, by decide, by decide, by decide⟩
  · exact (parse_memory_append_eq d ['K', 'i'] hd (by decide) "Ki" rfl).trans
      (pm_core_Ki h0 hd)
  · exact (parse_memory_append_eq d ['M', 'i'] hd (by decide) "Mi" rfl).trans
      (pm_core_Mi h0 hd)
  · exact (parse_memory_append_eq d ['G', 'i'] hd (by decide) "Gi" rfl).trans
      (pm_core_Gi h0 hd)
  · exact (parse_memory_append_eq d ['K'] hd (by decide) "K" rfl).trans
      (pm_core_K h0 hd)
  · exact (parse_memory_append_eq d ['M'] hd (by decide) "M" rfl).trans
      (pm_core_M h0 hd)
  · exact (parse_memory_append_eq d ['G'] hd (by decide) "G" rfl).trans
      (pm_core_G h0 hd)
  · exact (parse_memory_digits_eq d hd).trans (pm_core_bare h0 hd)

/-- Witness for C1 at the concrete digit string `"7"`. -/
theorem parse_memory_unit_multipliers_witness :
    parse_memory ("7" ++ "Ki") = some ((digitsVal "7".toList : Int) * 1024) :=
  (parse_memory_unit_multipliers "7" (by decide) (by decide)).1

/-- C2: `parse_cpu` checks suffix `n` first (nanocores, floor-divided by
    10^6), then `m` (millicores, taken directly), else whole cores
    multiplied by 1000; the three concrete fixtures hold. -/
theorem parse_cpu_suffix_rules (d : String) (h0 : d.toList ≠ [])
    (hd : ∀ c ∈ d.toList, c.isDigit = true) :
    parse_cpu (d ++ "n") = some ((digitsVal d.toList / 1000000 : Nat) : Int)
    ∧ parse_cpu (d ++ "m") = some ((digitsVal d.toList : Int))
    ∧ parse_cpu d = some ((digitsVal d.toList : Int) * 1000)
    ∧ parse_cpu "500m" = some 500
    ∧ parse_cpu "2" = some 2000
    ∧ parse_cpu "250000000n" = some 250 := by
  refine ⟨?_, ?_, ?_, by decide, by decide, by decide⟩
  · exact pc_n h0 hd
  · exact pc_m h0 hd
  · exact pc_bare h0 hd

/-- Witness for C2 at the concrete digit string `"7"`. -/
theorem parse_cpu_suffix_rules_witness :
    parse_cpu ("7" ++ "m") = some ((digitsVal "7".toList : Int)) :=
  (parse_cpu_suffix_rules "7" (by decide) (by decide)).2.1

/-- C9 counterexample: `parse_cpu` does not trim whitespace before suffix
    matching — `"500m"` parses to 500 but `"500m "` (trailing space) fails,
    because the suffix test sees the space, and the whole string is then not
    an integer. -/
theorem parse_cpu_whitespace_counterexample :
    parse_cpu "500m" = some 500 ∧ parse_cpu "500m " = none := by decide

/-- C9 amended: only `parse_memory` trims leading/trailing whitespace before
    suffix matching; padding a memory quantity string with whitespace never
    changes the result. (`parse_cpu` performs no strip, and a suffixed CPU
    quantity with trailing whitespace fails, per the counterexample.) -/
theorem parse_memory_whitespace_invariant (s ws1 ws2 : String)
    (h1 : ∀ c ∈ ws1.toList, isPySpace c = true)
    (h2 : ∀ c ∈ ws2.toList, isPySpace c = true) :
    parse_memory (ws1 ++ s ++ ws2) = parse_memory s := by
  unfold parse_memory
  have e : (ws1 ++ s ++ ws2).toList = ws1.toList ++ s.toList ++ ws2.toList := by
    show (ws1 ++ s ++ ws2).data = ws1.data ++ s.data ++ ws2.data
    rw [String.data_append, String.data_append]
  rw [e, pyStrip_pad h1 h2]

/-- Witness for the amended C9 at a concrete padded memory quantity. -/
theorem parse_memory_whitespace_invariant_witness :
    parse_memory (" " ++ "12Mi" ++ " ") = parse_memory "12Mi" :=
  parse_memory_whitespace_invariant "12Mi" " " " " (by decide) (by decide)

/-! ### The node data model (`NodeMetrics` dataclass from the source) -/

/-- A normalized condition entry (`{'type': ..., 'status': ..., 'reason': ...}`). -/
structure NodeCondition where
  type : String
  status : String
  reason : String
deriving DecidableEq

/-- A normalized taint entry (`{'key': ..., 'effect': ..., 'value': ...}`). -/
structure NodeTaint where
  key : String
  effect : String
  value : String
deriving DecidableEq

/-- The `NodeMetrics` dataclass from the source. -/
structure NodeMetrics where
  name : String
  cpu_usage : Int
  cpu_capacity : Int
  memory_usage : Int
  memory_capacity : Int
  pod_count : Int
  pod_capacity : Int
  status : String
  labels : List (String × String)
  conditions : List NodeCondition
  taints : List NodeTaint
deriving DecidableEq

/-- Per-node CPU percentage from `print_node_details`:
    `usage / capacity * 100` guarded by `capacity > 0 else 0`. -/
def cpu_percent (n : NodeMetrics) : ℚ :=
  if n.cpu_capacity > 0 then (n.cpu_usage : ℚ) / (n.cpu_capacity : ℚ) * 100 else 0

/-- Per-node memory percentage from `print_node_details`. -/
def mem_percent (n : NodeMetrics) : ℚ :=
  if n.memory_capacity > 0 then (n.memory_usage : ℚ) / (n.memory_capacity : ℚ) * 100
  else 0

/-- Per-node pod-fill percentage from `print_node_details`. -/
def pod_percent (n : NodeMetrics) : ℚ :=
  if n.pod_capacity > 0 then (n.pod_count : ℚ) / (n.pod_capacity : ℚ) * 100 else 0

/-- Function `get_color_for_usage` from the source. -/
def get_color_for_usage (percent : ℚ) : String :=
  if percent ≥ 90 then "red"
  else if percent ≥ 75 then "yellow"
  else if percent ≥ 50 then "cyan"
  else "green"

/-- The usage bands named by the specification. -/
inductive UsageBand
  | Low
  | Medium
  | High
  | Critical
deriving DecidableEq

/-- Numeric severity rank of a band, for monotonicity statements. -/
def UsageBand.toNat : UsageBand → Nat
  | .Low => 0
  | .Medium => 1
  | .High => 2
  | .Critical => 3

/-- The display color the source assigns to each band. -/
def UsageBand.color : UsageBand → String
  | .Critical => "red"
  | .High => "yellow"
  | .Medium => "cyan"
  | .Low => "green"

/-- The band classifier: the source's `get_color_for_usage` threshold chain
    with bands in place of color names. -/
def classify (r : ℚ) : UsageBand :=
  if r ≥ 90 then .Critical
  else if r ≥ 75 then .High
  else if r ≥ 50 then .Medium
  else .Low

/-- C5: `classify` is lower-bound-inclusive on each band (≥90 Critical,
    75–90 High, 50–75 Medium, <50 Low), agrees with the source's color
    function, is monotonic, and is boundary-exact at 90 and 89.999. -/
theorem classify_bands (r s : ℚ) (hrs : r ≤ s) :
    get_color_for_usage r = (classify r).color
    ∧ (classify r = UsageBand.Critical ↔ 90 ≤ r)
    ∧ (classify r = UsageBand.High ↔ 75 ≤ r ∧ r < 90)
    ∧ (classify r = UsageBand.Medium ↔ 50 ≤ r ∧ r < 75)
    ∧ (classify r = UsageBand.Low ↔ r < 50)
    ∧ (classify r).toNat ≤ (classify s).toNat
    ∧ classify 90 = UsageBand.Critical
    ∧ classify (89999 / 1000 : ℚ) = UsageBand.High := by
  have hmono : (classify r).toNat ≤ (classify s).toNat := by
    unfold classify
    by_cases h90 : (90 : ℚ) ≤ r
    · rw [if_pos (le_trans h90 hrs), if_pos h90]
    · by_cases h75 : (75 : ℚ) ≤ r
      · rw [if_neg h90, if_pos h75]
        by_cases h90s : (90 : ℚ) ≤ s
        · rw [if_pos h90s]
          decide
        · rw [if_neg h90s, if_pos (le_trans h75 hrs)]
      · by_cases h50 : (50 : ℚ) ≤ r
        · rw [if_neg h90, if_neg h75, if_pos h50]
          by_cases h90s : (90 : ℚ) ≤ s
          · rw [if_pos h90s]
            decide
          · rw [if_neg h90s]
            by_cases h75s : (75 : ℚ) ≤ s
            · rw [if_pos h75s]
              decide
            · rw [if_neg h75s, if_pos (le_trans h50 hrs)]
        · rw [if_neg h90, if_neg h75, if_neg h50]
          cases hb : (if (90 : ℚ) ≤ s then UsageBand.Critical
            else if (75 : ℚ) ≤ s then UsageBand.High
            else if (50 : ℚ) ≤ s then UsageBand.Medium else UsageBand.Low) <;>
            simp [UsageBand.toNat]
  refine ⟨?_, ?_, ?_, ?_, ?_, hmono, by norm_num [classify], by norm_num [classify]⟩
  · unfold get_color_for_usage classify
    by_cases h90 : (90 : ℚ) ≤ r
    · rw [if_pos h90, if_pos h90]
      rfl
    · by_cases h75 : (75 : ℚ) ≤ r
      · rw [if_neg h90, if_neg h90, if_pos h75, if_pos h75]
        rfl
      · by_cases h50 : (50 : ℚ) ≤ r
        · rw [if_neg h90, if_neg h90, if_neg h75, if_neg h75, if_pos h50, if_pos h50]
          rfl
        · rw [if_neg h90, if_neg h90, if_neg h75, if_neg h75, if_neg h50, if_neg h50]
          rfl
  all_goals
    unfold classify
    by_cases h90 : (90 : ℚ) ≤ r <;> by_cases h75 : (75 : ℚ) ≤ r <;>
      by_cases h50 : (50 : ℚ) ≤ r <;>
      simp [h90, h75, h50] <;> first | omega | linarith

/-- Witness for C5 at the boundary pair 89.999 and 90. -/
theorem classify_bands_witness :
    get_color_for_usage (89999 / 1000 : ℚ) = (classify (89999 / 1000 : ℚ)).color
    ∧ (classify (89999 / 1000 : ℚ) = UsageBand.Critical ↔ 90 ≤ (89999 / 1000 : ℚ))
    ∧ (classify (89999 / 1000 : ℚ) = UsageBand.High ↔
        75 ≤ (89999 / 1000 : ℚ) ∧ (89999 / 1000 : ℚ) < 90)
    ∧ (classify (89999 / 1000 : ℚ) = UsageBand.Medium ↔
        50 ≤ (89999 / 1000 : ℚ) ∧ (89999 / 1000 : ℚ) < 75)
    ∧ (classify (89999 / 1000 : ℚ) = UsageBand.Low ↔ (89999 / 1000 : ℚ) < 50)
    ∧ (classify (89999 / 1000 : ℚ)).toNat ≤ (classify (90 : ℚ)).toNat
    ∧ classify 90 = UsageBand.Critical
    ∧ classify (89999 / 1000 : ℚ) = UsageBand.High :=
  classify_bands (89999 / 1000 : ℚ) 90 (by norm_num)

/-! ### Aggregation (`print_summary`) and the query pipeline (`main`) -/

/-- The cluster-wide aggregate computed at the top of `print_summary`. -/
structure ClusterSummary where
  total_nodes : Nat
  ready_nodes : Nat
  tainted_nodes : Nat
  total_cpu_usage : Int
  total_cpu_capacity : Int
  total_mem_usage : Int
  total_mem_capacity : Int
  total_pods : Int
  cpu_percent : ℚ
  mem_percent : ℚ
deriving DecidableEq

/-- The aggregation performed by `print_summary`: counts, per-field sums, and
    guarded cluster-wide percentages. -/
def summarize (nodes : List NodeMetrics) : ClusterSummary :=
  let total_cpu_usage := (nodes.map (fun n => n.cpu_usage)).sum
  let total_cpu_capacity := (nodes.map (fun n => n.cpu_capacity)).sum
  let total_mem_usage := (nodes.map (fun n => n.memory_usage)).sum
  let total_mem_capacity := (nodes.map (fun n => n.memory_capacity)).sum
  { total_nodes := nodes.length
    ready_nodes := nodes.countP (fun n => n.status == "Ready")
    tainted_nodes := nodes.countP (fun n => !n.taints.isEmpty)
    total_cpu_usage := total_cpu_usage
    total_cpu_capacity := total_cpu_capacity
    total_mem_usage := total_mem_usage
    total_mem_capacity := total_mem_capacity
    total_pods := (nodes.map (fun n => n.pod_count)).sum
    cpu_percent :=
      if total_cpu_capacity > 0 then
        (total_cpu_usage : ℚ) / (total_cpu_capacity : ℚ) * 100
      else 0
    mem_percent :=
      if total_mem_capacity > 0 then
        (total_mem_usage : ℚ) / (total_mem_capacity : ℚ) * 100
      else 0 }

/-- C6: `summarize` is order-invariant — permuting the input records yields an
    identical `ClusterSummary` (every count, sum, and derived ratio agrees). -/
theorem summarize_perm (l l2 : List NodeMetrics) (h : l.Perm l2) :
    summarize l = summarize l2 := by
  unfold summarize
  have hlen := h.length_eq
  have hready := h.countP_eq (fun n => n.status == "Ready")
  have htaint := h.countP_eq (fun n => !n.taints.isEmpty)
  have hcu := ((h.map (fun n => n.cpu_usage)).sum_eq :
    (l.map (fun n => n.cpu_usage)).sum = (l2.map (fun n => n.cpu_usage)).sum)
  have hcc := ((h.map (fun n => n.cpu_capacity)).sum_eq :
    (l.map (fun n => n.cpu_capacity)).sum = (l2.map (fun n => n.cpu_capacity)).sum)
  have hmu := ((h.map (fun n => n.memory_usage)).sum_eq :
    (l.map (fun n => n.memory_usage)).sum = (l2.map (fun n => n.memory_usage)).sum)
  have hmc := ((h.map (fun n => n.memory_capacity)).sum_eq :
    (l.map (fun n => n.memory_capacity)).sum =
      (l2.map (fun n => n.memory_capacity)).sum)
  have hp := ((h.map (fun n => n.pod_count)).sum_eq :
    (l.map (fun n => n.pod_count)).sum = (l2.map (fun n => n.pod_count)).sum)
  simp only [hlen, hready, htaint, hcu, hcc, hmu, hmc, hp]

/-- Witness for C6: swapping two concrete records leaves the summary
    unchanged. -/
theorem summarize_perm_witness :
    summarize
      [{ name := "a", cpu_usage := 900, cpu_capacity := 1000, memory_usage := 1,
         memory_capacity := 2, pod_count := 3, pod_capacity := 4,
         status := "Ready", labels := [], conditions := [], taints := [] },
       { name := "b", cpu_usage := 100, cpu_capacity := 2000, memory_usage := 5,
         memory_capacity := 6, pod_count := 7, pod_capacity := 8,
         status := "NotReady", labels := [], conditions := [],
         taints := [{ key := "k", effect := "NoSchedule", value := "" }] }] =
    summarize
      [{ name := "b", cpu_usage := 100, cpu_capacity := 2000, memory_usage := 5,
         memory_capacity := 6, pod_count := 7, pod_capacity := 8,
         status := "NotReady", labels := [], conditions := [],
         taints := [{ key := "k", effect := "NoSchedule", value := "" }] },
       { name := "a", cpu_usage := 900, cpu_capacity := 1000, memory_usage := 1,
         memory_capacity := 2, pod_count := 3, pod_capacity := 4,
         status := "Ready", labels := [], conditions := [], taints := [] }] :=
  summarize_perm _ _ (List.Perm.swap _ _ _)

/-- The `--filter-high-usage` predicate from `main`: CPU or memory above 75%,
    with `capacity > 0` guards that make zero capacity never match. -/
def high_usage (n : NodeMetrics) : Bool :=
  (if n.cpu_capacity > 0 then
    decide ((n.cpu_usage : ℚ) / (n.cpu_capacity : ℚ) * 100 > 75)
  else false)
  || (if n.memory_capacity > 0 then
    decide ((n.memory_usage : ℚ) / (n.memory_capacity : ℚ) * 100 > 75)
  else false)

/-- The `--sort-by cpu` key from `main` (ratio, not percentage). -/
def cpu_sort_key (n : NodeMetrics) : ℚ :=
  if n.cpu_capacity > 0 then (n.cpu_usage : ℚ) / (n.cpu_capacity : ℚ) else 0

/-- The `--sort-by memory` key from `main`. -/
def mem_sort_key (n : NodeMetrics) : ℚ :=
  if n.memory_capacity > 0 then (n.memory_usage : ℚ) / (n.memory_capacity : ℚ)
  else 0

/-- The `--sort-by pods` key from `main`. -/
def pods_sort_key (n : NodeMetrics) : ℚ :=
  if n.pod_capacity > 0 then (n.pod_count : ℚ) / (n.pod_capacity : ℚ) else 0

/-- C3: with a zero capacity field, every ratio computation — the display
    percentages, the sort keys, the high-usage filter predicate, and the
    cluster-wide summary percentages — returns 0 instead of failing. -/
theorem zero_capacity_ratios_zero (n : NodeMetrics) (l : List NodeMetrics) :
    (n.cpu_capacity = 0 → cpu_percent n = 0 ∧ cpu_sort_key n = 0)
    ∧ (n.memory_capacity = 0 → mem_percent n = 0 ∧ mem_sort_key n = 0)
    ∧ (n.pod_capacity = 0 → pod_percent n = 0 ∧ pods_sort_key n = 0)
    ∧ (n.cpu_capacity = 0 → n.memory_capacity = 0 → high_usage n = false)
    ∧ ((l.map (fun x => x.cpu_capacity)).sum = 0 → (summarize l).cpu_percent = 0)
    ∧ ((l.map (fun x => x.memory_capacity)).sum = 0 →
        (summarize l).mem_percent = 0) := by
  refine ⟨?_, ?_, ?_, ?_, ?_, ?_⟩
  · intro h
    constructor <;> simp [cpu_percent, cpu_sort_key, h]
  · intro h
    constructor <;> simp [mem_percent, mem_sort_key, h]
  · intro h
    constructor <;> simp [pod_percent, pods_sort_key, h]
  · intro hc hm
    simp [high_usage, hc, hm]
  · intro h
    simp [summarize, h]
  · intro h
    simp [summarize, h]

/-- Witness for C3 at a concrete zero-capacity record and singleton list. -/
theorem zero_capacity_ratios_zero_witness :
    cpu_percent
      { name := "z", cpu_usage := 5, cpu_capacity := 0, memory_usage := 5,
        memory_capacity := 0, pod_count := 5, pod_capacity := 0,
        status := "Ready", labels := [], conditions := [], taints := [] } = 0
    ∧ high_usage
      { name := "z", cpu_usage := 5, cpu_capacity := 0, memory_usage := 5,
        memory_capacity := 0, pod_count := 5, pod_capacity := 0,
        status := "Ready", labels := [], conditions := [], taints := [] } = false
    ∧ (summarize
      [{ name := "z", cpu_usage := 5, cpu_capacity := 0, memory_usage := 5,
         memory_capacity := 0, pod_count := 5, pod_capacity := 0,
         status := "Ready", labels := [], conditions := [],
         taints := [] }]).cpu_percent = 0 := by
  have h := zero_capacity_ratios_zero
    { name := "z", cpu_usage := 5, cpu_capacity := 0, memory_usage := 5,
      memory_capacity := 0, pod_count := 5, pod_capacity := 0,
      status := "Ready", labels := [], conditions := [], taints := [] }
    [{ name := "z", cpu_usage := 5, cpu_capacity := 0, memory_usage := 5,
       memory_capacity := 0, pod_count := 5, pod_capacity := 0,
       status := "Ready", labels := [], conditions := [], taints := [] }]
  exact ⟨(h.1 rfl).1, h.2.2.2.1 rfl rfl, h.2.2.2.2.1 (by decide)⟩

/-- The four `--sort-by` choices accepted by `main`. -/
inductive SortKey
  | cpu
  | memory
  | pods
  | name
deriving DecidableEq

/-- The comparison `main` sorts with: descending on the numeric ratio keys
    (Python `sort(key=..., reverse=True)`), ascending lexicographic on name. -/
def sortLe : SortKey → NodeMetrics → NodeMetrics → Bool
  | .cpu, a, b => decide (cpu_sort_key b ≤ cpu_sort_key a)
  | .memory, a, b => decide (mem_sort_key b ≤ mem_sort_key a)
  | .pods, a, b => decide (pods_sort_key b ≤ pods_sort_key a)
  | .name, a, b => decide (a.name ≤ b.name)

/-- The filter stage of `main`: `--filter-tainted` then `--filter-high-usage`,
    conjunctively. -/
def apply_filters (filter_tainted fh : Bool) (nodes : List NodeMetrics) :
    List NodeMetrics :=
  let nodes1 := if filter_tainted then nodes.filter (fun n => !n.taints.isEmpty)
    else nodes
  if fh then nodes1.filter high_usage else nodes1

/-- The sort stage of `main`, as a stable merge sort (Python `list.sort` is
    stable, also with `reverse=True`). -/
def sort_nodes (k : SortKey) (nodes : List NodeMetrics) : List NodeMetrics :=
  nodes.mergeSort (sortLe k)

/-- The query pipeline of `main`: filters first, then one sort. -/
def run_pipeline (ft fh : Bool) (k : SortKey) (nodes : List NodeMetrics) :
    List NodeMetrics :=
  sort_nodes k (apply_filters ft fh nodes)

theorem sortLe_trans (k : SortKey) (a b c : NodeMetrics)
    (h1 : sortLe k a b = true) (h2 : sortLe k b c = true) : sortLe k a c = true := by
  cases k <;> simp only [sortLe, decide_eq_true_eq] at h1 h2 ⊢
  · exact le_trans h2 h1
  · exact le_trans h2 h1
  · exact le_trans h2 h1
  · exact le_trans h1 h2

theorem sortLe_total (k : SortKey) (a b : NodeMetrics) :
    sortLe k a b || sortLe k b a := by
  cases k <;> simp only [sortLe, Bool.or_eq_true, decide_eq_true_eq]
  · exact le_total _ _
  · exact le_total _ _
  · exact le_total _ _
  · exact le_total _ _

/-- C7: the pipeline filters before sorting (equation one is definitional),
    sorting permutes exactly the filtered records, orders them by the single
    selected key (descending ratios, ascending name, encoded in `sortLe`),
    and is stable: an ordered pair of the filtered sequence stays a
    subsequence of the output. -/
theorem pipeline_filter_sort_stable (ft fh : Bool) (k : SortKey)
    (l : List NodeMetrics) (a b : NodeMetrics) (hab : sortLe k a b = true)
    (hsub : [a, b].Sublist (apply_filters ft fh l)) :
    run_pipeline ft fh k l = sort_nodes k (apply_filters ft fh l)
    ∧ (run_pipeline ft fh k l).Perm (apply_filters ft fh l)
    ∧ (run_pipeline ft fh k l).Pairwise (fun x y => sortLe k x y = true)
    ∧ [a, b].Sublist (run_pipeline ft fh k l) := by
  refine ⟨rfl, List.mergeSort_perm _ _, ?_, ?_⟩
  · exact List.sorted_mergeSort (fun x y z => sortLe_trans k x y z)
      (fun x y => sortLe_total k x y) _
  · exact List.pair_sublist_mergeSort (fun x y z => sortLe_trans k x y z)
      (fun x y => sortLe_total k x y) hab hsub

/-- Witness for C7 on a concrete two-record list with equal keys. -/
theorem pipeline_filter_sort_stable_witness :
    run_pipeline false false SortKey.cpu
        [{ name := "a", cpu_usage := 0, cpu_capacity := 0, memory_usage := 0,
           memory_capacity := 0, pod_count := 0, pod_capacity := 0,
           status := "Ready", labels := [], conditions := [], taints := [] },
         { name := "b", cpu_usage := 0, cpu_capacity := 0, memory_usage := 0,
           memory_capacity := 0, pod_count := 0, pod_capacity := 0,
           status := "Ready", labels := [], conditions := [], taints := [] }] =
      sort_nodes SortKey.cpu (apply_filters false false
        [{ name := "a", cpu_usage := 0, cpu_capacity := 0, memory_usage := 0,
           memory_capacity := 0, pod_count := 0, pod_capacity := 0,
           status := "Ready", labels := [], conditions := [], taints := [] },
         { name := "b", cpu_usage := 0, cpu_capacity := 0, memory_usage := 0,
           memory_capacity := 0, pod_count := 0, pod_capacity := 0,
           status := "Ready", labels := [], conditions := [], taints := [] }])
    ∧ (run_pipeline false false SortKey.cpu
        [{ name := "a", cpu_usage := 0, cpu_capacity := 0, memory_usage := 0,
           memory_capacity := 0, pod_count := 0, pod_capacity := 0,
           status := "Ready", labels := [], conditions := [], taints := [] },
         { name := "b", cpu_usage := 0, cpu_capacity := 0, memory_usage := 0,
           memory_capacity := 0, pod_count := 0, pod_capacity := 0,
           status := "Ready", labels := [], conditions := [], taints := [] }]).Perm
      (apply_filters false false
        [{ name := "a", cpu_usage := 0, cpu_capacity := 0, memory_usage := 0,
           memory_capacity := 0, pod_count := 0, pod_capacity := 0,
           status := "Ready", labels := [], conditions := [], taints := [] },
         { name := "b", cpu_usage := 0, cpu_capacity := 0, memory_usage := 0,
           memory_capacity := 0, pod_count := 0, pod_capacity := 0,
           status := "Ready", labels := [], conditions := [], taints := [] }])
    ∧ (run_pipeline false false SortKey.cpu
        [{ name := "a", cpu_usage := 0, cpu_capacity := 0, memory_usage := 0,
           memory_capacity := 0, pod_count := 0, pod_capacity := 0,
           status := "Ready", labels := [], conditions := [], taints := [] },
         { name := "b", cpu_usage := 0, cpu_capacity := 0, memory_usage := 0,
           memory_capacity := 0, pod_count := 0, pod_capacity := 0,
           status := "Ready", labels := [], conditions := [],
           taints := [] }]).Pairwise
        (fun x y => sortLe SortKey.cpu x y = true)
    ∧ [{ name := "a", cpu_usage := 0, cpu_capacity := 0, memory_usage := 0,
         memory_capacity := 0, pod_count := 0, pod_capacity := 0,
         status := "Ready", labels := [], conditions := [], taints := [] },
       { name := "b", cpu_usage := 0, cpu_capacity := 0, memory_usage := 0,
         memory_capacity := 0, pod_count := 0, pod_capacity := 0,
         status := "Ready", labels := [], conditions := [],
         taints := [] }].Sublist
      (run_pipeline false false SortKey.cpu
        [{ name := "a", cpu_usage := 0, cpu_capacity := 0, memory_usage := 0,
           memory_capacity := 0, pod_count := 0, pod_capacity := 0,
           status := "Ready", labels := [], conditions := [], taints := [] },
         { name := "b", cpu_usage := 0, cpu_capacity := 0, memory_usage := 0,
           memory_capacity := 0, pod_count := 0, pod_capacity := 0,
           status := "Ready", labels := [], conditions := [], taints := [] }]) :=
  pipeline_filter_sort_stable false false SortKey.cpu _ _ _ (by decide)
    (List.Sublist.refl _)

/-! ### The node snapshot builder (`get_node_metrics`, per node) -/

/-- A raw condition as reported by the node API (`reason` may be absent). -/
structure RawCondition where
  type : String
  status : String
  reason : Option String
deriving DecidableEq

/-- A raw taint as reported by the node API (`value` may be absent). -/
structure RawTaint where
  key : String
  effect : String
  value : Option String
deriving DecidableEq

/-- One raw node descriptor: the fields of the API object that
    `get_node_metrics` reads. -/
structure NodeDesc where
  name : String
  capacity : List (String × String)
  allocatable : List (String × String)
  conditions : List RawCondition
  labels : Option (List (String × String))
  taints : Option (List RawTaint)
deriving DecidableEq

/-- Python `dict.get(key, default)` on an association list. -/
def dictGet (d : List (String × String)) (k dflt : String) : String :=
  match d.find? (fun p => p.1 == k) with
  | some p => p.2
  | none => dflt

/-- The per-node body of `get_node_metrics`: parse capacities, look the node
    up in the metrics map (zero usage when absent), derive status, normalize
    labels, conditions and taints. A parse failure anywhere fails the node. -/
def build_node (metrics_map : List (String × List (String × String)))
    (node : NodeDesc) (pod_count : Nat) : Option NodeMetrics := do
  let cpu_capacity ← pyInt (dictGet node.capacity "cpu" "0")
  let memory_capacity ← parse_memory (dictGet node.capacity "memory" "0")
  let pod_capacity ← pyInt (dictGet node.allocatable "pods" "0")
  let usage ←
    match metrics_map.find? (fun p => p.1 == node.name) with
    | some p => do
      let cu ← parse_cpu (dictGet p.2 "cpu" "0")
      let mu ← parse_memory (dictGet p.2 "memory" "0")
      pure (cu, mu)
    | none => pure ((0 : Int), (0 : Int))
  pure
    { name := node.name
      cpu_usage := usage.1
      cpu_capacity := cpu_capacity * 1000
      memory_usage := usage.2
      memory_capacity := memory_capacity
      pod_count := (pod_count : Int)
      pod_capacity := pod_capacity
      status :=
        if node.conditions.any (fun c => c.type == "Ready" && c.status == "True")
        then "Ready" else "NotReady"
      labels := node.labels.getD []
      conditions := node.conditions.map
        (fun c => { type := c.type, status := c.status, reason := c.reason.getD "" })
      taints := (node.taints.getD []).map
        (fun t => { key := t.key, effect := t.effect, value := t.value.getD "" }) }

/-- C8: when the node has no entry in the metrics map, `build_node` sets both
    usage fields to zero and still constructs the record, with capacity, pod,
    status, label, condition, and taint fields from the node descriptor. -/
theorem build_node_missing_metrics
    (mm : List (String × List (String × String))) (node : NodeDesc) (pc : Nat)
    (cc mc pcap : Int)
    (hmiss : mm.find? (fun p => p.1 == node.name) = none)
    (hcc : pyInt (dictGet node.capacity "cpu" "0") = some cc)
    (hmc : parse_memory (dictGet node.capacity "memory" "0") = some mc)
    (hpc : pyInt (dictGet node.allocatable "pods" "0") = some pcap) :
    build_node mm node pc = some
      { name := node.name
        cpu_usage := 0
        cpu_capacity := cc * 1000
        memory_usage := 0
        memory_capacity := mc
        pod_count := (pc : Int)
        pod_capacity := pcap
        status :=
          if node.conditions.any
            (fun c => c.type == "Ready" && c.status == "True")
          then "Ready" else "NotReady"
        labels := node.labels.getD []
        conditions := node.conditions.map
          (fun c =>
            { type := c.type, status := c.status, reason := c.reason.getD "" })
        taints := (node.taints.getD []).map
          (fun t =>
            { key := t.key, effect := t.effect, value := t.value.getD "" }) } := by
  simp [build_node, hmiss, hcc, hmc, hpc, Option.bind]

/-- Witness for C8 at a concrete node absent from an empty metrics map. -/
theorem build_node_missing_metrics_witness :
    build_node []
      { name := "n1", capacity := [("cpu", "4"), ("memory", "16Gi")],
        allocatable := [("pods", "110")],
        conditions := [{ type := "Ready", status := "True", reason := none }],
        labels := none, taints := none } 3 = some
      { name := "n1", cpu_usage := 0, cpu_capacity := 4000, memory_usage := 0,
        memory_capacity := 17179869184, pod_count := 3, pod_capacity := 110,
        status := "Ready", labels := [],
        conditions := [{ type := "Ready", status := "True", reason := "" }],
        taints := [] } :=
  (build_node_missing_metrics [] _ 3 4 17179869184 110 (by decide) (by decide)
    (by decide) (by decide)).trans (by decide)

/-- C10: the parsers accept a leading minus sign — `-<d>m` parses to the
    negative millicore count and `-<d>Ki` to the negative byte count — and
    `build_node` therefore can produce a record with negative usage fields:
    the parsing layer guarantees no non-negativity. -/
theorem parse_negative_quantities (d : String) (h0 : d.toList ≠ [])
    (hd : ∀ c ∈ d.toList, c.isDigit = true) :
    parse_cpu ("-" ++ d ++ "m") = some (-(digitsVal d.toList : Int))
    ∧ parse_memory ("-" ++ d ++ "Ki") = some (-(digitsVal d.toList : Int) * 1024)
    ∧ ∃ (mm : List (String × List (String × String))) (node : NodeDesc)
        (pc : Nat) (r : NodeMetrics),
        build_node mm node pc = some r ∧ r.cpu_usage < 0 ∧ r.memory_usage < 0 := by
  refine ⟨pc_neg_m h0 hd, ?_, ?_⟩
  · have e : ("-" ++ d ++ "Ki").toList = ('-' :: d.toList) ++ ['K', 'i'] := by
      show ("-" ++ d ++ "Ki").data = ('-' :: d.data) ++ ['K', 'i']
      rw [String.data_append, String.data_append]
      rfl
    have hns : ∀ c ∈ ('-' :: d.toList) ++ ['K', 'i'], isPySpace c = false := by
      intro c hc
      rcases List.mem_append.mp hc with h | h
      · rcases List.mem_cons.mp h with rfl | h
        · rfl
        · exact no_space_digits hd c h
      · simp only [List.mem_cons, List.not_mem_nil, or_false] at h
        rcases h with rfl | rfl <;> rfl
    unfold parse_memory
    rw [e, pyStrip_eq_self hns]
    exact pm_core_neg_Ki h0 hd
  · refine ⟨[("x", [("cpu", "-5m"), ("memory", "-1Ki")])],
      { name := "x", capacity := [("cpu", "1"), ("memory", "1Ki")],
        allocatable := [("pods", "10")], conditions := [], labels := none,
        taints := none }, 0,
      { name := "x", cpu_usage := -5, cpu_capacity := 1000,
        memory_usage := -1024, memory_capacity := 1024, pod_count := 0,
        pod_capacity := 10, status := "NotReady", labels := [],
        conditions := [], taints := [] }, by decide, by decide, by decide⟩

/-- Witness for C10 at the concrete digit string `"5"`. -/
theorem parse_negative_quantities_witness :
    parse_cpu ("-" ++ "5" ++ "m") = some (-(digitsVal "5".toList : Int)) :=
  (parse_negative_quantities "5" (by decide) (by decide)).1

/-! ### Recognizers: which strings the parsers accept (for C4) -/

/-- Recognizer for the tail of a Python integer literal after its first
    digit (mirrors `pyDigitsAux`). -/
def pyRestOk : List Char → Bool
  | [] => true
  | '_' :: c2 :: rest2 => c2.isDigit && pyRestOk rest2
  | c :: rest => c.isDigit && pyRestOk rest

/-- Recognizer for a whole stripped Python integer literal (mirrors
    `pyIntCore`). -/
def pyIntOkCore : List Char → Bool
  | '-' :: c2 :: rest2 => c2.isDigit && pyRestOk rest2
  | '+' :: c2 :: rest2 => c2.isDigit && pyRestOk rest2
  | c :: rest => c.isDigit && pyRestOk rest
  | [] => false

/-- A string is numeric for Python `int()` iff its stripped form matches the
    sign-and-digits grammar. -/
def isPyIntStr (s : String) : Bool := pyIntOkCore (pyStrip s.toList)

theorem pyDigitsAux_isSome :
    ∀ (l : List Char) (acc : Nat), (pyDigitsAux acc l).isSome = pyRestOk l
  | [], _ => rfl
  | c :: rest, acc => by
    by_cases hc : c = '_'
    · subst hc
      cases rest with
      | nil => rfl
      | cons c2 rest2 =>
        by_cases h2 : c2.isDigit = true
        · simp [pyDigitsAux, pyRestOk, h2,
            pyDigitsAux_isSome rest2 (acc * 10 + digitVal c2)]
        · simp [pyDigitsAux, pyRestOk, h2]
    · by_cases hd : c.isDigit = true
      · simp [pyDigitsAux, pyRestOk, hc, hd,
          pyDigitsAux_isSome rest (acc * 10 + digitVal c)]
      · simp [pyDigitsAux, pyRestOk, hc, hd]

theorem isSome_bind_some {α β : Type} (o : Option α) (f : α → β) :
    (o.bind fun a => some (f a)).isSome = o.isSome := by
  cases o <;> rfl

theorem pyIntCore_isSome (l : List Char) :
    (pyIntCore l).isSome = pyIntOkCore l := by
  cases l with
  | nil => rfl
  | cons c rest =>
    by_cases hm : c = '-'
    · subst hm
      cases rest with
      | nil => rfl
      | cons c2 rest2 =>
        by_cases h2 : c2.isDigit = true
        · simp [pyIntCore, pyIntOkCore, h2, isSome_bind_some,
            pyDigitsAux_isSome rest2]
        · simp [pyIntCore, pyIntOkCore, h2]
    · by_cases hp : c = '+'
      · subst hp
        cases rest with
        | nil => rfl
        | cons c2 rest2 =>
          by_cases h2 : c2.isDigit = true
          · simp [pyIntCore, pyIntOkCore, h2, isSome_bind_some,
              pyDigitsAux_isSome rest2]
          · simp [pyIntCore, pyIntOkCore, h2]
      · by_cases hd : c.isDigit = true
        · simp [pyIntCore, pyIntOkCore, hm, hp, hd, isSome_bind_some,
            pyDigitsAux_isSome rest]
        · simp [pyIntCore, pyIntOkCore, hm, hp, hd]

theorem pyInt_isSome (s : String) : (pyInt s).isSome = isPyIntStr s :=
  pyIntCore_isSome _

theorem pyInt_none_iff (x : String) : pyInt x = none ↔ isPyIntStr x = false := by
  rw [← pyInt_isSome]
  cases pyInt x <;> simp

theorem pyInt_map_none_iff (x : String) (f : Int → Int) :
    (pyInt x).map f = none ↔ isPyIntStr x = false := by
  rw [Option.map_eq_none']
  exact pyInt_none_iff x

/-- The set of CPU quantity strings `parse_cpu` accepts: numeric body with
    recognized suffix `n` or `m`, or a bare numeric string. -/
def cpu_recognized (s : String) : Bool :=
  if pyEndsWith s "n" then isPyIntStr (dropRightStr s 1)
  else if pyEndsWith s "m" then isPyIntStr (dropRightStr s 1)
  else isPyIntStr s

/-- Suffix dispatch of the memory recognizer (mirrors `parse_memory_core`). -/
def mem_recognized_core (s : String) : Bool :=
  if pyEndsWith s "Ki" then isPyIntStr (dropRightStr s 2)
  else if pyEndsWith s "Mi" then isPyIntStr (dropRightStr s 2)
  else if pyEndsWith s "Gi" then isPyIntStr (dropRightStr s 2)
  else if pyEndsWith s "K" then isPyIntStr (dropRightStr s 1)
  else if pyEndsWith s "M" then isPyIntStr (dropRightStr s 1)
  else if pyEndsWith s "G" then isPyIntStr (dropRightStr s 1)
  else isPyIntStr s

/-- The set of memory quantity strings `parse_memory` accepts. -/
def mem_recognized (s0 : String) : Bool :=
  mem_recognized_core ⟨pyStrip s0.toList⟩

theorem pm_core_none_iff (t : String) :
    parse_memory_core t = none ↔ mem_recognized_core t = false := by
  unfold parse_memory_core mem_recognized_core
  by_cases h1 : pyEndsWith t "Ki" = true
  · rw [if_pos h1, if_pos h1]
    exact pyInt_map_none_iff _ _
  · rw [if_neg h1, if_neg h1]
    by_cases h2 : pyEndsWith t "Mi" = true
    · rw [if_pos h2, if_pos h2]
      exact pyInt_map_none_iff _ _
    · rw [if_neg h2, if_neg h2]
      by_cases h3 : pyEndsWith t "Gi" = true
      · rw [if_pos h3, if_pos h3]
        exact pyInt_map_none_iff _ _
      · rw [if_neg h3, if_neg h3]
        by_cases h4 : pyEndsWith t "K" = true
        · rw [if_pos h4, if_pos h4]
          exact pyInt_map_none_iff _ _
        · rw [if_neg h4, if_neg h4]
          by_cases h5 : pyEndsWith t "M" = true
          · rw [if_pos h5, if_pos h5]
            exact pyInt_map_none_iff _ _
          · rw [if_neg h5, if_neg h5]
            by_cases h6 : pyEndsWith t "G" = true
            · rw [if_pos h6, if_pos h6]
              exact pyInt_map_none_iff _ _
            · rw [if_neg h6, if_neg h6]
              exact pyInt_none_iff _

/-- C4: each parser fails (returns `none`, the embedding of the
    `MalformedQuantity` / `ValueError` failure) exactly on the inputs whose
    body is not numeric under the recognized-suffix grammar — an unparseable
    input is never given a default value, and a recognized input never
    fails. -/
theorem parse_fail_iff_unrecognized (s : String) :
    (parse_cpu s = none ↔ cpu_recognized s = false)
    ∧ (parse_memory s = none ↔ mem_recognized s = false) := by
  constructor
  · unfold parse_cpu cpu_recognized
    by_cases h1 : pyEndsWith s "n" = true
    · rw [if_pos h1, if_pos h1]
      exact pyInt_map_none_iff _ _
    · rw [if_neg h1, if_neg h1]
      by_cases h2 : pyEndsWith s "m" = true
      · rw [if_pos h2, if_pos h2]
        exact pyInt_none_iff _
      · rw [if_neg h2, if_neg h2]
        exact pyInt_map_none_iff _ _
  · exact pm_core_none_iff _

example : parse_memory "1Ki" = some 1024 := by decide
example : parse_memory "2Gi" = some 2147483648 := by decide
example : parse_memory "1000M" = some 1000000000 := by decide
example : parse_memory "1000000" = some 1000000 := by decide
example : parse_memory " 12Mi " = some 12582912 := by decide
example : parse_cpu "500m" = some 500 := by decide
example : parse_cpu "2" = some 2000 := by decide
example : parse_cpu "250000000n" = some 250 := by decide
example : parse_cpu "-5m" = some (-5) := by decide
example : parse_cpu "500m " = none := by decide
example : parse_cpu " 500m" = some 500 := by decide
example : parse_memory "1_0Ki" = some 10240 := by decide
example : parse_memory "abc" = none := by decide
example : parse_cpu "" = none := by decide

end OkeInspector
